import Mathlib

/-!
Formal model of src/resources/turntable_render.py (BlenderFileFinder).

Conventions of the shallow embedding:

* Python float scalars are modelled by exact rationals.
* Angles are measured in units of pi radians: the Python value
  2 * math.pi * i / k is stored as the rational 2 * i / k.
* The host application (bpy / mathutils) is modelled by the Host structure:
  the Euclidean vector length (mathutils Vector.length) and the track-to
  orientation helper (Vector.to_track_quat followed by to_euler) are abstract
  host primitives, and the outcome of bpy.ops.render.render is an abstract
  boolean function of the global frame index (the script catches a failed
  render and continues, so only success/failure matters).
* Blender enforces unique object names, so objects are identified by their
  name; the Python identity test obj != current_obj becomes a name test.
* File opening, os.makedirs, scene.camera assignment and
  setup_render_settings only mutate host I/O or render-parameter state that
  no claim touches; they are not part of the modelled state.
* Host API calls are modelled as total: the try/except around
  get_object_bounds can also fire on a host fault, which (like an empty
  mesh) yields the (None, 0.0) sentinel modelled below.
-/

structure Vec3 where
  x : ℚ
  y : ℚ
  z : ℚ
  deriving DecidableEq, Repr

def v0 : Vec3 := ⟨0, 0, 0⟩

def vmin (a b : Vec3) : Vec3 := ⟨min a.x b.x, min a.y b.y, min a.z b.z⟩

def vmax (a b : Vec3) : Vec3 := ⟨max a.x b.x, max a.y b.y, max a.z b.z⟩

def vsub (a b : Vec3) : Vec3 := ⟨a.x - b.x, a.y - b.y, a.z - b.z⟩

/-- Midpoint (min_co + max_co) / 2. -/
def vmid (a b : Vec3) : Vec3 := ⟨(a.x + b.x) / 2, (a.y + b.y) / 2, (a.z + b.z) / 2⟩

inductive ObjType
  | MESH | CAMERA | LIGHT | EMPTY | OTHER
  deriving DecidableEq, Repr

/-- Host-application primitives used by the script (mathutils and bpy.ops). -/
structure Host where
  /-- mathutils Vector.length: the Euclidean norm supplied by the host. -/
  len : Vec3 → ℚ
  /-- direction.to_track_quat('-Z', 'Y').to_euler(): the look-at orientation
  with the -Z axis pointing along the argument direction and Y up. -/
  trackNegZY : Vec3 → Vec3

/-- A Blender scene object: the fields of bpy.types.Object the script reads
or writes.  verts is the length of obj.data.vertices (0 when obj.data is
None or the mesh has no geometry). -/
structure Obj where
  name : String
  objType : ObjType
  verts : Nat
  bound_box : Fin 8 → Vec3
  matrix_world : Vec3 → Vec3
  location : Vec3
  rotation_euler : Vec3
  parent : Option String
  hide_render : Bool
  hide_viewport : Bool

abbrev Scene := List Obj

/-- A featured-object entry: the (object, center, size) tuple.  The object is
identified by its (unique) name; obj = none only for the whole-scene
fallback entry. -/
structure Feat where
  obj : Option String
  center : Vec3
  size : ℚ
  deriving DecidableEq, Repr

/-- One invocation of the render operator inside the frame loop, recording
the pivot rotation set just before it and the camera/pivot state it renders
with.  Rotations are in units of pi radians. -/
structure Attempt where
  objIdx : Nat
  frameIdx : Int
  rotation : Vec3
  ok : Bool
  camLoc : Option Vec3
  camParent : Option (Option String)
  camRot : Option Vec3
  pivotLoc : Option Vec3
  deriving DecidableEq, Repr

/-- World-space bounding-box corners: obj.matrix_world @ Vector(corner) for
the 8 corners of obj.bound_box. -/
def worldCorners (o : Obj) : List Vec3 :=
  (List.finRange 8).map (fun i => o.matrix_world (o.bound_box i))

/-- Componentwise min/max accumulation over a corner list, mirroring the
min_co/max_co fold; none for the empty list (the source starts from
plus/minus infinity, but bound_box always supplies 8 corners). -/
def foldBounds : List Vec3 → Option (Vec3 × Vec3)
  | [] => none
  | c :: rest => some (rest.foldl (fun p c2 => (vmin p.1 c2, vmax p.2 c2)) (c, c))

/-- get_object_bounds: world-space bounding box center and size of a single
object; (None, 0.0) for non-mesh objects and meshes without geometry. -/
def get_object_bounds (h : Host) (o : Obj) : Option Vec3 × ℚ :=
  if o.objType ≠ ObjType.MESH then (none, 0)
  else if o.verts = 0 then (none, 0)
  else
    match foldBounds (worldCorners o) with
    | none => (none, 0)
    | some (mn, mx) => (some (vmid mn mx), max (h.len (vsub mx mn)) (1 / 10))

/-- The entries accumulated by get_largest_objects before sorting: mesh
objects whose bounds computation yields a center and size > 0.01, in scene
enumeration order. -/
def qualifying (h : Host) (scene : Scene) : List Feat :=
  scene.filterMap (fun o =>
    if o.objType = ObjType.MESH then
      match get_object_bounds h o with
      | (some c, s) => if 1 / 100 < s then some ⟨some o.name, c, s⟩ else none
      | (none, _) => none
    else none)

/-- Stable insertion step for the size-descending sort: the inserted
(earlier) element goes before the first element whose size is not larger,
so equal sizes keep their original relative order. -/
def insertBySize (a : Feat) : List Feat → List Feat
  | [] => [a]
  | b :: l => if a.size < b.size then b :: insertBySize a l else a :: b :: l

/-- Stable size-descending sort.  Python's list.sort is stable and
reverse=True preserves stability, so the source sort is extensionally this
insertion sort. -/
def sortBySize : List Feat → List Feat
  | [] => []
  | a :: l => insertBySize a (sortBySize l)

def MAX_FEATURED_OBJECTS : Nat := 5

/-- get_largest_objects: qualifying entries sorted by size descending,
truncated to max_count. -/
def get_largest_objects (h : Host) (scene : Scene) (max_count : Nat) : List Feat :=
  (sortBySize (qualifying h scene)).take max_count

/-- World corners of every mesh object, in enumeration order (the joint
accumulation of get_scene_bounds). -/
def allMeshCorners (scene : Scene) : List Vec3 :=
  (scene.filter (fun o => o.objType = ObjType.MESH)).flatMap worldCorners

/-- get_scene_bounds: joint bounding box of all mesh objects; the built-in
default ((0,0,0), 1.0) when the scene has no mesh objects.  The inner none
branch is unreachable: every mesh contributes its 8 bound_box corners. -/
def get_scene_bounds (h : Host) (scene : Scene) : Vec3 × ℚ :=
  if (scene.filter (fun o => o.objType = ObjType.MESH)).isEmpty then (v0, 1)
  else
    match foldBounds (allMeshCorners scene) with
    | none => (v0, 1)
    | some (mn, mx) => (vmid mn mx, max (h.len (vsub mx mn)) (1 / 10))

/-- The featured-object list handed to the frame loop: the survey result,
or the single whole-scene fallback entry when the survey is empty. -/
def featuredFor (h : Host) (scene : Scene) : List Feat :=
  if (get_largest_objects h scene MAX_FEATURED_OBJECTS).isEmpty then
    [⟨none, (get_scene_bounds h scene).1, (get_scene_bounds h scene).2⟩]
  else get_largest_objects h scene MAX_FEATURED_OBJECTS

def findByName (scene : Scene) (nm : String) : Option Obj :=
  scene.find? (fun o => o.name = nm)

/-- A freshly created data-API object (camera / light / empty): default
transforms, visible, no parent. -/
def mkObj (nm : String) (t : ObjType) (loc : Vec3) : Obj :=
  { name := nm
    objType := t
    verts := 0
    bound_box := fun _ => v0
    matrix_world := id
    location := loc
    rotation_euler := v0
    parent := none
    hide_render := false
    hide_viewport := false }

/-- setup_camera: reuse the object named TurntableCamera, else create a
camera at (distance, 0, distance * 0.5).  The center argument of the source
function is unused there; scene.camera assignment is unmodelled render
state. -/
def setup_camera (scene : Scene) (size : ℚ) : Scene :=
  let distance := size * (5 / 2)
  match findByName scene "TurntableCamera" with
  | some _ => scene
  | none => scene ++ [mkObj "TurntableCamera" ObjType.CAMERA ⟨distance, 0, distance * (1 / 2)⟩]

/-- setup_lighting: if no TurntableSun exists, create the sun and the area
fill light (light energy and physical size are render parameters no claim
touches and are not carried on Obj). -/
def setup_lighting (scene : Scene) (size : ℚ) : Scene :=
  match findByName scene "TurntableSun" with
  | some _ => scene
  | none =>
    let distance := size * (5 / 2)
    scene ++ [mkObj "TurntableSun" ObjType.LIGHT ⟨distance, distance, distance * 2⟩,
      mkObj "TurntableFill" ObjType.LIGHT ⟨-distance, -distance, distance⟩]

/-- setup_pivot, called with center (0,0,0): create the CameraPivot empty,
or reset its location and rotation. -/
def setup_pivot (scene : Scene) : Scene :=
  match findByName scene "CameraPivot" with
  | some _ =>
    scene.map (fun o =>
      if o.name = "CameraPivot" then { o with location := v0, rotation_euler := v0 } else o)
  | none => scene ++ [mkObj "CameraPivot" ObjType.EMPTY v0]

/-- Camera local position (distance, 0, distance * 0.5) for distance =
size * 2.5, as computed in position_camera_for_object. -/
def camVec (size : ℚ) : Vec3 := ⟨size * (5 / 2), 0, size * (5 / 2) * (1 / 2)⟩

/-- position_camera_for_object: move the pivot to center, parent the camera
under the pivot, set the camera local position to (d, 0, 0.5 d) with
d = size * 2.5, and orient the camera along (0,0,0) - camera.location. -/
def position_camera_for_object (h : Host) (scene : Scene) (center : Vec3) (size : ℚ) : Scene :=
  scene.map (fun o =>
    if o.name = "CameraPivot" then { o with location := center }
    else if o.name = "TurntableCamera" then
      { o with
        parent := some "CameraPivot"
        location := camVec size
        rotation_euler := h.trackNegZY (vsub v0 (camVec size)) }
    else o)

/-- set_object_visibility: hide every mesh except the current one; always
show cameras, lights and empties; leave other types untouched. -/
def set_object_visibility (scene : Scene) (current : String) : Scene :=
  scene.map (fun o =>
    if o.objType = ObjType.MESH then
      if o.name = current then { o with hide_render := false, hide_viewport := false }
      else { o with hide_render := true, hide_viewport := true }
    else if o.objType = ObjType.CAMERA ∨ o.objType = ObjType.LIGHT ∨ o.objType = ObjType.EMPTY then
      { o with hide_render := false, hide_viewport := false }
    else o)

/-- restore_visibility: unconditionally un-hide every object. -/
def restore_visibility (scene : Scene) : Scene :=
  scene.map (fun o => { o with hide_render := false, hide_viewport := false })

/-- The pivot.rotation_euler assignment inside the frame loop. -/
def setPivotRotation (scene : Scene) (r : Vec3) : Scene :=
  scene.map (fun o => if o.name = "CameraPivot" then { o with rotation_euler := r } else o)

def lookupLoc (scene : Scene) (nm : String) : Option Vec3 :=
  (findByName scene nm).map (fun o => o.location)

def lookupRot (scene : Scene) (nm : String) : Option Vec3 :=
  (findByName scene nm).map (fun o => o.rotation_euler)

def lookupParent (scene : Scene) (nm : String) : Option (Option String) :=
  (findByName scene nm).map (fun o => o.parent)

/-- The inner frame loop (for i in range(frames_per_object)): rotate the
pivot to (0, 0, 2 pi i / frames_per_object), render (the failure is caught,
so only the recorded outcome differs), increment the global frame index and
break once it reaches frame_count.  r counts the remaining iterations of
the range, i is the current loop variable, s the global frame index. -/
def innerFrames (h : Host) (ok : Int → Bool) (fpo fc : Int) (j : Nat) :
    Nat → Nat → Int → Scene → List Attempt → Scene × Int × List Attempt
  | 0, _, s, sc, acc => (sc, s, acc)
  | r + 1, i, s, sc, acc =>
    let ang : ℚ := 2 * (i : ℚ) / (fpo : ℚ)
    let sc1 := setPivotRotation sc ⟨0, 0, ang⟩
    let a : Attempt :=
      { objIdx := j
        frameIdx := s
        rotation := ⟨0, 0, ang⟩
        ok := ok s
        camLoc := lookupLoc sc1 "TurntableCamera"
        camParent := lookupParent sc1 "TurntableCamera"
        camRot := lookupRot sc1 "TurntableCamera"
        pivotLoc := lookupLoc sc1 "CameraPivot" }
    if fc ≤ s + 1 then (sc1, s + 1, acc ++ [a])
    else innerFrames h ok fpo fc j r (i + 1) (s + 1) sc1 (acc ++ [a])

/-- The visibility isolation step of the outer loop: applied only when the
entry is a real object (the whole-scene fallback has obj = none). -/
def visStep (sc : Scene) (curr : Option String) : Scene :=
  match curr with
  | some nm => set_object_visibility sc nm
  | none => sc

/-- The outer per-object loop: isolate visibility (only for real objects),
place the camera, run the inner frame loop, and stop once the global frame
index reaches frame_count. -/
def outerLoop (h : Host) (ok : Int → Bool) (fpo fc : Int) :
    List Feat → Nat → Int → Scene → List Attempt → Scene × Int × List Attempt
  | [], _, s, sc, acc => (sc, s, acc)
  | e :: rest, j, s, sc, acc =>
    let sc1 := visStep sc e.obj
    let sc2 := position_camera_for_object h sc1 e.center e.size
    let res := innerFrames h ok fpo fc j fpo.toNat 0 s sc2 acc
    if fc ≤ res.2.1 then res
    else outerLoop h ok fpo fc rest (j + 1) res.2.1 res.1 res.2.2

/-- Result of a full run: the final scene, the final global frame index and
the trace of render attempts. -/
structure RunResult where
  scene : Scene
  frames : Int
  trace : List Attempt

/-- render_turntable after a successful file open: survey (with whole-scene
fallback), frame budget split, rig setup, the object-and-frame loop, and
the unconditional visibility restore.  frame_count is the Python int parsed
from the command line; // is floor division (Int.fdiv). -/
def render_turntable (h : Host) (ok : Int → Bool) (scene0 : Scene) (frame_count : Int) :
    RunResult :=
  let featured := featuredFor h scene0
  let num_objects : Int := featured.length
  let frames_per_object : Int := max 1 (Int.fdiv frame_count num_objects)
  let largest_size := (featured.headD ⟨none, v0, 0⟩).size
  let sc1 := setup_lighting scene0 largest_size
  let sc2 := setup_camera sc1 largest_size
  let sc3 := setup_pivot sc2
  let res := outerLoop h ok frames_per_object frame_count featured 0 0 sc3 []
  { scene := restore_visibility res.1, frames := res.2.1, trace := res.2.2 }

/-! ### Lemmas about the stable size-descending sort -/

theorem insertBySize_length (a : Feat) (l : List Feat) :
    (insertBySize a l).length = l.length + 1 := by
  induction l with
  | nil => rfl
  | cons b l ih =>
    simp only [insertBySize]
    split <;> simp [ih]

theorem insertBySize_perm (a : Feat) (l : List Feat) :
    (insertBySize a l).Perm (a :: l) := by
  induction l with
  | nil => exact List.Perm.refl _
  | cons b l ih =>
    simp only [insertBySize]
    split
    · exact (ih.cons b).trans (List.Perm.swap a b l)
    · exact List.Perm.refl _

theorem sortBySize_perm (l : List Feat) : (sortBySize l).Perm l := by
  induction l with
  | nil => exact List.Perm.refl _
  | cons a l ih =>
    simp only [sortBySize]
    exact (insertBySize_perm a (sortBySize l)).trans (ih.cons a)

theorem insertBySize_pairwise (a : Feat) (l : List Feat)
    (hl : l.Pairwise (fun x y => y.size ≤ x.size)) :
    (insertBySize a l).Pairwise (fun x y => y.size ≤ x.size) := by
  induction l with
  | nil => simp [insertBySize]
  | cons b l ih =>
    rcases List.pairwise_cons.mp hl with ⟨hb, hl2⟩
    simp only [insertBySize]
    split
    · rename_i hab
      refine List.pairwise_cons.mpr ⟨?_, ih hl2⟩
      intro x hx
      rcases List.mem_cons.mp ((insertBySize_perm a l).mem_iff.mp hx) with hxa | hxl
      · exact le_of_lt (hxa ▸ hab)
      · exact hb x hxl
    · rename_i hab
      refine List.pairwise_cons.mpr ⟨?_, hl⟩
      intro x hx
      rcases List.mem_cons.mp hx with hxb | hxl
      · exact hxb ▸ le_of_not_lt hab
      · exact le_trans (hb x hxl) (le_of_not_lt hab)

theorem sortBySize_pairwise (l : List Feat) :
    (sortBySize l).Pairwise (fun x y => y.size ≤ x.size) := by
  induction l with
  | nil => simp [sortBySize]
  | cons a l ih => exact insertBySize_pairwise a (sortBySize l) ih

theorem insertBySize_filter_size (a : Feat) (l : List Feat) (v : ℚ) :
    (insertBySize a l).filter (fun e => e.size = v) =
      (a :: l).filter (fun e => e.size = v) := by
  induction l with
  | nil => rfl
  | cons b l ih =>
    simp only [insertBySize]
    split
    · rename_i hab
      by_cases hb : b.size = v
      · have ha : ¬a.size = v := by
          intro ha
          exact absurd (ha.trans hb.symm) (ne_of_lt hab)
        simp only [List.filter_cons] at ih ⊢
        simp [ha, hb] at ih ⊢
        exact ih
      · simp only [List.filter_cons] at ih ⊢
        simp [hb] at ih ⊢
        exact ih
    · rfl

theorem sortBySize_filter_size (l : List Feat) (v : ℚ) :
    (sortBySize l).filter (fun e => e.size = v) = l.filter (fun e => e.size = v) := by
  induction l with
  | nil => rfl
  | cons a l ih =>
    simp only [sortBySize]
    rw [insertBySize_filter_size]
    simp only [List.filter_cons]
    by_cases ha : a.size = v <;> simp [ha, ih]

theorem sortBySize_length (l : List Feat) : (sortBySize l).length = l.length :=
  (sortBySize_perm l).length_eq

/-- C2: for any scene with N qualifying mesh objects and feature cap M,
get_largest_objects returns exactly min(N, M) entries, ordered by size
descending, the entries being a permutation-stable truncation of the
qualifying list: the sorted list is a permutation of the qualifying list
and, for every size value, lists the entries of that size in their
original enumeration order. -/
theorem c2_get_largest_objects (h : Host) (scene : Scene) (M : Nat) :
    (get_largest_objects h scene M).length = min (qualifying h scene).length M
    ∧ get_largest_objects h scene M = (sortBySize (qualifying h scene)).take M
    ∧ (get_largest_objects h scene M).Pairwise (fun a b => b.size ≤ a.size)
    ∧ (sortBySize (qualifying h scene)).Perm (qualifying h scene)
    ∧ ∀ v : ℚ, (sortBySize (qualifying h scene)).filter (fun e => e.size = v) =
        (qualifying h scene).filter (fun e => e.size = v) := by
  refine ⟨?_, rfl, ?_, sortBySize_perm _, fun v => sortBySize_filter_size _ v⟩
  · simp [get_largest_objects, sortBySize_length, Nat.min_comm]
  · exact List.Pairwise.sublist (List.take_sublist M _) (sortBySize_pairwise _)

/-! ### Name-directed lookup lemmas -/

theorem find?_map_of_name (f : Obj → Obj) (hf : ∀ o, (f o).name = o.name)
    (l : List Obj) (nm : String) :
    (l.map f).find? (fun o => o.name = nm) = (l.find? (fun o => o.name = nm)).map f := by
  induction l with
  | nil => rfl
  | cons o l ih =>
    by_cases hnm : o.name = nm
    · have hf2 : (f o).name = nm := by rw [hf o]; exact hnm
      simp [List.find?_cons, hnm, hf2]
    · have hf2 : ¬(f o).name = nm := by rw [hf o]; exact hnm
      simp [List.find?_cons, hnm, hf2, ih]

theorem findByName_map (f : Obj → Obj) (hf : ∀ o, (f o).name = o.name)
    (sc : Scene) (nm : String) :
    findByName (sc.map f) nm = (findByName sc nm).map f :=
  find?_map_of_name f hf sc nm

theorem findByName_map_isSome (f : Obj → Obj) (hf : ∀ o, (f o).name = o.name)
    (sc : Scene) (nm : String) :
    (findByName (sc.map f) nm).isSome = (findByName sc nm).isSome := by
  rw [findByName_map f hf]
  cases findByName sc nm <;> rfl

theorem findByName_name (sc : Scene) (nm : String) (o : Obj)
    (ho : findByName sc nm = some o) : o.name = nm := by
  have := List.find?_some ho
  simpa using this

theorem set_object_visibility_name (cur : String) (o : Obj) :
    (if o.objType = ObjType.MESH then
      if o.name = cur then { o with hide_render := false, hide_viewport := false }
      else { o with hide_render := true, hide_viewport := true }
    else if o.objType = ObjType.CAMERA ∨ o.objType = ObjType.LIGHT ∨ o.objType = ObjType.EMPTY then
      { o with hide_render := false, hide_viewport := false }
    else o).name = o.name := by
  repeat' split
  all_goals rfl

theorem findByName_set_object_visibility (sc : Scene) (cur nm : String) :
    (findByName (set_object_visibility sc cur) nm).isSome = (findByName sc nm).isSome := by
  unfold set_object_visibility
  exact findByName_map_isSome _ (set_object_visibility_name cur) sc nm

theorem position_camera_name (h : Host) (center : Vec3) (size : ℚ) (o : Obj) :
    (if o.name = "CameraPivot" then { o with location := center }
    else if o.name = "TurntableCamera" then
      { o with
        parent := some "CameraPivot"
        location := camVec size
        rotation_euler := h.trackNegZY (vsub v0 (camVec size)) }
    else o).name = o.name := by
  repeat' split
  all_goals rfl

theorem findByName_position_camera (h : Host) (sc : Scene) (c : Vec3) (s : ℚ) (nm : String) :
    (findByName (position_camera_for_object h sc c s) nm).isSome =
      (findByName sc nm).isSome := by
  unfold position_camera_for_object
  exact findByName_map_isSome _ (position_camera_name h c s) sc nm

theorem setPivotRotation_name (r : Vec3) (o : Obj) :
    (if o.name = "CameraPivot" then { o with rotation_euler := r } else o).name = o.name := by
  split <;> rfl

theorem findByName_setPivotRotation (sc : Scene) (r : Vec3) (nm : String) :
    (findByName (setPivotRotation sc r) nm).isSome = (findByName sc nm).isSome := by
  unfold setPivotRotation
  exact findByName_map_isSome _ (setPivotRotation_name r) sc nm

theorem lookupLoc_position_camera_cam (h : Host) (sc : Scene) (c : Vec3) (s : ℚ)
    (hc : (findByName sc "TurntableCamera").isSome = true) :
    lookupLoc (position_camera_for_object h sc c s) "TurntableCamera" = some (camVec s) := by
  obtain ⟨o, ho⟩ := Option.isSome_iff_exists.mp hc
  have hname : o.name = "TurntableCamera" := findByName_name sc _ o ho
  unfold lookupLoc position_camera_for_object
  rw [findByName_map _ (position_camera_name h c s), ho]
  simp [hname]

theorem lookupParent_position_camera_cam (h : Host) (sc : Scene) (c : Vec3) (s : ℚ)
    (hc : (findByName sc "TurntableCamera").isSome = true) :
    lookupParent (position_camera_for_object h sc c s) "TurntableCamera" =
      some (some "CameraPivot") := by
  obtain ⟨o, ho⟩ := Option.isSome_iff_exists.mp hc
  have hname : o.name = "TurntableCamera" := findByName_name sc _ o ho
  unfold lookupParent position_camera_for_object
  rw [findByName_map _ (position_camera_name h c s), ho]
  simp [hname]

theorem lookupRot_position_camera_cam (h : Host) (sc : Scene) (c : Vec3) (s : ℚ)
    (hc : (findByName sc "TurntableCamera").isSome = true) :
    lookupRot (position_camera_for_object h sc c s) "TurntableCamera" =
      some (h.trackNegZY (vsub v0 (camVec s))) := by
  obtain ⟨o, ho⟩ := Option.isSome_iff_exists.mp hc
  have hname : o.name = "TurntableCamera" := findByName_name sc _ o ho
  unfold lookupRot position_camera_for_object
  rw [findByName_map _ (position_camera_name h c s), ho]
  simp [hname]

theorem lookupLoc_position_camera_pivot (h : Host) (sc : Scene) (c : Vec3) (s : ℚ)
    (hp : (findByName sc "CameraPivot").isSome = true) :
    lookupLoc (position_camera_for_object h sc c s) "CameraPivot" = some c := by
  obtain ⟨o, ho⟩ := Option.isSome_iff_exists.mp hp
  have hname : o.name = "CameraPivot" := findByName_name sc _ o ho
  unfold lookupLoc position_camera_for_object
  rw [findByName_map _ (position_camera_name h c s), ho]
  simp [hname]

theorem lookupLoc_setPivotRotation (sc : Scene) (r : Vec3) (nm : String) :
    lookupLoc (setPivotRotation sc r) nm = lookupLoc sc nm := by
  unfold lookupLoc setPivotRotation
  rw [findByName_map _ (setPivotRotation_name r)]
  cases findByName sc nm with
  | none => rfl
  | some o =>
    simp only [Option.map_some', Option.map_map, Function.comp_apply]
    split <;> rfl

theorem lookupParent_setPivotRotation (sc : Scene) (r : Vec3) (nm : String) :
    lookupParent (setPivotRotation sc r) nm = lookupParent sc nm := by
  unfold lookupParent setPivotRotation
  rw [findByName_map _ (setPivotRotation_name r)]
  cases findByName sc nm with
  | none => rfl
  | some o =>
    simp only [Option.map_some', Option.map_map, Function.comp_apply]
    split <;> rfl

theorem lookupRot_setPivotRotation_cam (sc : Scene) (r : Vec3) :
    lookupRot (setPivotRotation sc r) "TurntableCamera" =
      lookupRot sc "TurntableCamera" := by
  unfold lookupRot setPivotRotation
  rw [findByName_map _ (setPivotRotation_name r)]
  cases ho : findByName sc "TurntableCamera" with
  | none => rfl
  | some o =>
    have hname : o.name = "TurntableCamera" := findByName_name sc _ o ho
    simp [hname]

/-! ### Expected trace of the frame loop -/

/-- The block of attempts produced for one featured object that starts at
global frame index s: a full range of frames_per_object frames. -/
def expBlock (h : Host) (ok : Int → Bool) (fpo : Int) (j : Nat) (s : Int) (e : Feat) :
    List Attempt :=
  (List.range fpo.toNat).map (fun (t : Nat) =>
    { objIdx := j
      frameIdx := s + (t : Int)
      rotation := ⟨0, 0, 2 * (t : ℚ) / (fpo : ℚ)⟩
      ok := ok (s + (t : Int))
      camLoc := some (camVec e.size)
      camParent := some (some "CameraPivot")
      camRot := some (h.trackNegZY (vsub v0 (camVec e.size)))
      pivotLoc := some e.center })

/-- The expected trace of the outer loop from featured-list suffix l,
object index j and global frame index s. -/
def expOuter (h : Host) (ok : Int → Bool) (fpo fc : Int) :
    List Feat → Nat → Int → List Attempt
  | [], _, _ => []
  | e :: rest, j, s =>
    expBlock h ok fpo j s e ++
      (if fc ≤ s + fpo then [] else expOuter h ok fpo fc rest (j + 1) (s + fpo))

/-! ### Arithmetic facts about the frame budget -/

theorem fpo_one_le (fc n : Int) : 1 ≤ max 1 (Int.fdiv fc n) := le_max_left _ _

theorem fpo_eq_one_of_nonpos (fc n : Int) (hn : 0 < n) (hfc : fc ≤ 0) :
    max 1 (Int.fdiv fc n) = 1 := by
  have hd : Int.fdiv fc n ≤ 1 := by
    rcases lt_or_eq_of_le hfc with hlt | heq
    · exact le_of_lt (lt_of_lt_of_le (Int.fdiv_neg' hlt hn) (by norm_num))
    · subst heq
      rw [Int.zero_fdiv]
      norm_num
  exact max_eq_left hd

theorem mul_fdiv_le (fc n : Int) (hn : 0 < n) : n * Int.fdiv fc n ≤ fc := by
  have h1 := Int.fmod_add_fdiv fc n
  have h2 := Int.fmod_nonneg' fc hn
  omega

theorem fpo_step (fc n j : Int) (hn : 0 < n) (hj : j + 1 ≤ n) (_hj0 : 0 ≤ j)
    (hjs : j * max 1 (Int.fdiv fc n) < fc) :
    (j + 1) * max 1 (Int.fdiv fc n) ≤ fc := by
  by_cases hd : 1 ≤ Int.fdiv fc n
  · rw [max_eq_right hd] at hjs ⊢
    have h1 : (j + 1) * Int.fdiv fc n ≤ n * Int.fdiv fc n :=
      mul_le_mul_of_nonneg_right hj (by omega)
    exact le_trans h1 (mul_fdiv_le fc n hn)
  · have hm : max 1 (Int.fdiv fc n) = 1 := max_eq_left (by omega)
    rw [hm] at hjs ⊢
    omega

/-! ### The inner frame loop produces one full block -/

theorem innerFrames_spec (h : Host) (ok : Int → Bool) (fpo fc : Int) (j : Nat) :
    ∀ (r i : Nat) (s : Int) (sc : Scene) (acc : List Attempt),
    (r ≤ 1 ∨ s + (r : Int) ≤ fc) →
    (innerFrames h ok fpo fc j r i s sc acc).2.2 =
      acc ++ (List.range r).map (fun t =>
        { objIdx := j
          frameIdx := s + (t : Int)
          rotation := ⟨0, 0, 2 * ((i + t : Nat) : ℚ) / (fpo : ℚ)⟩
          ok := ok (s + (t : Int))
          camLoc := lookupLoc sc "TurntableCamera"
          camParent := lookupParent sc "TurntableCamera"
          camRot := lookupRot sc "TurntableCamera"
          pivotLoc := lookupLoc sc "CameraPivot" })
    ∧ (innerFrames h ok fpo fc j r i s sc acc).2.1 = s + (r : Int)
    ∧ ∀ nm, (findByName (innerFrames h ok fpo fc j r i s sc acc).1 nm).isSome =
        (findByName sc nm).isSome := by
  intro r
  induction r with
  | zero =>
    intro i s sc acc hfull
    refine ⟨by simp [innerFrames], by simp [innerFrames], fun nm => by simp [innerFrames]⟩
  | succ r ih =>
    intro i s sc acc hfull
    simp only [innerFrames]
    split
    · rename_i hstop
      have hr0 : r = 0 := by
        rcases hfull with h1 | h2
        · omega
        · omega
      subst hr0
      refine ⟨?_, by simp, fun nm => by rw [findByName_setPivotRotation]⟩
      simp [List.range_succ, lookupLoc_setPivotRotation, lookupParent_setPivotRotation,
        lookupRot_setPivotRotation_cam]
    · rename_i hgo
      have hfull' : r ≤ 1 ∨ (s + 1) + (r : Int) ≤ fc := by
        rcases hfull with h1 | h2
        · left; omega
        · right; omega
      obtain ⟨htr, hidx, hpres⟩ :=
        ih (i + 1) (s + 1) (setPivotRotation sc ⟨0, 0, 2 * (i : ℚ) / (fpo : ℚ)⟩) _ hfull'
      refine ⟨?_, ?_, fun nm => ?_⟩
      · rw [htr]
        simp only [lookupLoc_setPivotRotation, lookupParent_setPivotRotation,
          lookupRot_setPivotRotation_cam]
        rw [List.append_assoc, List.singleton_append, List.range_succ_eq_map, List.map_cons,
          List.map_map]
        refine congrArg (fun x => acc ++ x) ?_
        rw [List.cons.injEq]
        refine ⟨by simp, ?_⟩
        apply List.map_congr_left
        intro t ht
        have e2 : i + 1 + t = i + (t + 1) := by omega
        have e3 : s + 1 + (t : Int) = s + (((t + 1 : Nat) : Int)) := by push_cast; ring
        simp only [Function.comp_apply, Nat.succ_eq_add_one]
        rw [e3, e2]
      · rw [hidx]
        push_cast
        ring
      · rw [hpres, findByName_setPivotRotation]

theorem findByName_visStep (sc : Scene) (o : Option String) (nm : String) :
    (findByName (visStep sc o) nm).isSome = (findByName sc nm).isSome := by
  cases o with
  | none => rfl
  | some cur => exact findByName_set_object_visibility sc cur nm

/-! ### The outer loop produces the expected trace -/

theorem outerLoop_spec (h : Host) (ok : Int → Bool) (fc : Int) (N : Nat) (hN : 1 ≤ N) :
    ∀ (l : List Feat) (j : Nat) (sc : Scene) (acc : List Attempt),
    (fc ≤ 0 → j = 0) →
    (1 ≤ fc → (j : Int) * max 1 (Int.fdiv fc (N : Int)) < fc) →
    (j + l.length ≤ N) →
    ((findByName sc "TurntableCamera").isSome = true) →
    ((findByName sc "CameraPivot").isSome = true) →
    (outerLoop h ok (max 1 (Int.fdiv fc (N : Int))) fc l j
        ((j : Int) * max 1 (Int.fdiv fc (N : Int))) sc acc).2.2 =
      acc ++ expOuter h ok (max 1 (Int.fdiv fc (N : Int))) fc l j
        ((j : Int) * max 1 (Int.fdiv fc (N : Int))) := by
  set fpo : Int := max 1 (Int.fdiv fc (N : Int)) with hfpo
  have hNpos : (0 : Int) < (N : Int) := by exact_mod_cast hN
  have hfpo1 : (1 : Int) ≤ fpo := le_max_left _ _
  have htn : ((fpo.toNat : Int)) = fpo := Int.toNat_of_nonneg (by omega)
  intro l
  induction l with
  | nil =>
    intro j sc acc _ _ _ _ _
    simp [outerLoop, expOuter]
  | cons e rest ih =>
    intro j sc acc hj0 hjlt hlen hcam hpiv
    have hcam1 : (findByName (visStep sc e.obj) "TurntableCamera").isSome = true := by
      rw [findByName_visStep]; exact hcam
    have hpiv1 : (findByName (visStep sc e.obj) "CameraPivot").isSome = true := by
      rw [findByName_visStep]; exact hpiv
    have hcam2 : (findByName (position_camera_for_object h (visStep sc e.obj) e.center e.size)
        "TurntableCamera").isSome = true := by
      rw [findByName_position_camera]; exact hcam1
    have hpiv2 : (findByName (position_camera_for_object h (visStep sc e.obj) e.center e.size)
        "CameraPivot").isSome = true := by
      rw [findByName_position_camera]; exact hpiv1
    have hstep : 1 ≤ fc → ((j : Int) + 1) * fpo ≤ fc := by
      intro hfc1
      have hj1N : j + 1 ≤ N := by
        have := hlen
        simp [List.length_cons] at this
        omega
      rw [hfpo]
      refine fpo_step fc (N : Int) (j : Int) hNpos ?_ (Int.natCast_nonneg j) ?_
      · exact_mod_cast hj1N
      · rw [← hfpo]; exact hjlt hfc1
    have hfull : fpo.toNat ≤ 1 ∨ ((j : Int) * fpo) + (fpo.toNat : Int) ≤ fc := by
      by_cases hfc : fc ≤ 0
      · left
        have h1 : fpo = 1 := by rw [hfpo]; exact fpo_eq_one_of_nonpos fc (N : Int) hNpos hfc
        rw [h1]
        simp
      · right
        have hfc1 : (1 : Int) ≤ fc := by omega
        have h2 := hstep hfc1
        have h3 : ((j : Int) + 1) * fpo = (j : Int) * fpo + fpo := by ring
        rw [htn]
        linarith
    obtain ⟨htr, hidx, hpres⟩ := innerFrames_spec h ok fpo fc j fpo.toNat 0 ((j : Int) * fpo)
      (position_camera_for_object h (visStep sc e.obj) e.center e.size) acc hfull
    rw [lookupLoc_position_camera_cam h _ _ _ hcam1,
      lookupParent_position_camera_cam h _ _ _ hcam1,
      lookupRot_position_camera_cam h _ _ _ hcam1,
      lookupLoc_position_camera_pivot h _ _ _ hpiv1] at htr
    simp only [Nat.zero_add] at htr
    simp only [outerLoop, expOuter]
    rw [hidx, htn]
    by_cases hif : fc ≤ (j : Int) * fpo + fpo
    · rw [if_pos hif, if_pos hif, htr, List.append_nil]
      simp only [expBlock]
    · rw [if_neg hif, if_neg hif, htr]
      have hs2 : (j : Int) * fpo + fpo = ((j + 1 : Nat) : Int) * fpo := by push_cast; ring
      rw [hs2]
      have hj0' : fc ≤ 0 → j + 1 = 0 := by
        intro hfc
        exfalso
        have hnn : (0 : Int) ≤ (j : Int) * fpo := mul_nonneg (Int.natCast_nonneg j) (by omega)
        have : fc ≤ (j : Int) * fpo + fpo := by linarith
        exact hif this
      have hjlt' : 1 ≤ fc → ((j + 1 : Nat) : Int) * fpo < fc := by
        intro _
        rw [← hs2]
        exact not_le.mp hif
      have hlen' : (j + 1) + rest.length ≤ N := by
        have := hlen
        simp [List.length_cons] at this
        omega
      have hcam' : (findByName (innerFrames h ok fpo fc j fpo.toNat 0 ((j : Int) * fpo)
          (position_camera_for_object h (visStep sc e.obj) e.center e.size) acc).1
          "TurntableCamera").isSome = true := by
        rw [hpres]; exact hcam2
      have hpiv' : (findByName (innerFrames h ok fpo fc j fpo.toNat 0 ((j : Int) * fpo)
          (position_camera_for_object h (visStep sc e.obj) e.center e.size) acc).1
          "CameraPivot").isSome = true := by
        rw [hpres]; exact hpiv2
      rw [ih (j + 1) _ _ hj0' hjlt' hlen' hcam' hpiv']
      simp [expBlock, List.append_assoc]

/-! ### Rig setup establishes the camera and pivot -/

theorem findByName_append_or (sc1 sc2 : Scene) (nm : String) :
    findByName (sc1 ++ sc2) nm = (findByName sc1 nm).or (findByName sc2 nm) := by
  unfold findByName
  exact List.find?_append

theorem setup_camera_cam (sc : Scene) (size : ℚ) :
    (findByName (setup_camera sc size) "TurntableCamera").isSome = true := by
  unfold setup_camera
  cases hf : findByName sc "TurntableCamera" with
  | some o => simp [hf]
  | none => simp [findByName_append_or, hf, findByName, mkObj]

theorem setup_camera_mono (sc : Scene) (size : ℚ) (nm : String)
    (hs : (findByName sc nm).isSome = true) :
    (findByName (setup_camera sc size) nm).isSome = true := by
  unfold setup_camera
  cases hf : findByName sc "TurntableCamera" with
  | some o => simpa using hs
  | none =>
    rw [findByName_append_or]
    obtain ⟨o, ho⟩ := Option.isSome_iff_exists.mp hs
    simp [ho]

theorem setup_lighting_mono (sc : Scene) (size : ℚ) (nm : String)
    (hs : (findByName sc nm).isSome = true) :
    (findByName (setup_lighting sc size) nm).isSome = true := by
  unfold setup_lighting
  cases hf : findByName sc "TurntableSun" with
  | some o => simpa using hs
  | none =>
    rw [findByName_append_or]
    obtain ⟨o, ho⟩ := Option.isSome_iff_exists.mp hs
    simp [ho]

theorem setup_pivot_name (o : Obj) :
    (if o.name = "CameraPivot" then { o with location := v0, rotation_euler := v0 } else o).name
      = o.name := by
  split <;> rfl

theorem setup_pivot_pivot (sc : Scene) :
    (findByName (setup_pivot sc) "CameraPivot").isSome = true := by
  unfold setup_pivot
  cases hf : findByName sc "CameraPivot" with
  | some o =>
    rw [findByName_map _ setup_pivot_name, hf]
    rfl
  | none => simp [findByName_append_or, hf, findByName, mkObj]

theorem setup_pivot_mono (sc : Scene) (nm : String)
    (hs : (findByName sc nm).isSome = true) :
    (findByName (setup_pivot sc) nm).isSome = true := by
  unfold setup_pivot
  cases hf : findByName sc "CameraPivot" with
  | some o =>
    rw [findByName_map_isSome _ setup_pivot_name]
    exact hs
  | none =>
    rw [findByName_append_or]
    obtain ⟨o, ho⟩ := Option.isSome_iff_exists.mp hs
    simp [ho]

/-! ### The featured list is never empty -/

theorem featuredFor_ne_nil (h : Host) (scene : Scene) : featuredFor h scene ≠ [] := by
  unfold featuredFor
  split
  · simp
  · rename_i hne
    intro hcon
    rw [hcon] at hne
    simp at hne


theorem featuredFor_length_pos (h : Host) (scene : Scene) :
    1 ≤ (featuredFor h scene).length := by
  have := featuredFor_ne_nil h scene
  cases hf : featuredFor h scene with
  | nil => exact absurd hf this
  | cons a l => simp

/-! ### The trace of a full run -/

theorem render_trace_eq (h : Host) (ok : Int → Bool) (scene0 : Scene) (fc : Int) :
    (render_turntable h ok scene0 fc).trace =
      expOuter h ok (max 1 (Int.fdiv fc ((featuredFor h scene0).length : Int))) fc
        (featuredFor h scene0) 0 0 := by
  have hN : 1 ≤ (featuredFor h scene0).length := featuredFor_length_pos h scene0
  have hcam : (findByName (setup_pivot (setup_camera
      (setup_lighting scene0 ((featuredFor h scene0).headD ⟨none, v0, 0⟩).size)
      ((featuredFor h scene0).headD ⟨none, v0, 0⟩).size)) "TurntableCamera").isSome = true :=
    setup_pivot_mono _ _ (setup_camera_cam _ _)
  have hpiv : (findByName (setup_pivot (setup_camera
      (setup_lighting scene0 ((featuredFor h scene0).headD ⟨none, v0, 0⟩).size)
      ((featuredFor h scene0).headD ⟨none, v0, 0⟩).size)) "CameraPivot").isSome = true :=
    setup_pivot_pivot _
  have hmain := outerLoop_spec h ok fc (featuredFor h scene0).length hN
    (featuredFor h scene0) 0
    (setup_pivot (setup_camera
      (setup_lighting scene0 ((featuredFor h scene0).headD ⟨none, v0, 0⟩).size)
      ((featuredFor h scene0).headD ⟨none, v0, 0⟩).size)) []
    (fun _ => rfl) (fun hfc => by simp only [Nat.cast_zero, zero_mul]; omega) (by simp) hcam hpiv
  simp only [Nat.cast_zero, zero_mul, List.nil_append] at hmain
  unfold render_turntable
  exact hmain

/-! ### Properties of the expected trace -/

theorem expOuter_objIdx_ge (h : Host) (ok : Int → Bool) (fpo fc : Int) :
    ∀ (l : List Feat) (j : Nat) (s : Int) (a : Attempt),
    a ∈ expOuter h ok fpo fc l j s → j ≤ a.objIdx := by
  intro l
  induction l with
  | nil =>
    intro j s a ha
    simp [expOuter] at ha
  | cons e rest ih =>
    intro j s a ha
    unfold expOuter at ha
    rcases List.mem_append.mp ha with hb | hr
    · unfold expBlock at hb
      obtain ⟨t, _, rfl⟩ := List.mem_map.mp hb
      exact le_refl j
    · split at hr
      · simp at hr
      · have := ih (j + 1) (s + fpo) a hr
        omega

theorem expOuter_mem_fields (h : Host) (ok : Int → Bool) (fpo fc : Int) :
    ∀ (l : List Feat) (j : Nat) (s : Int) (a : Attempt),
    a ∈ expOuter h ok fpo fc l j s →
    ∃ (t : Nat) (e : Feat), l[t]? = some e ∧ a.objIdx = j + t ∧
      a.camLoc = some (camVec e.size) ∧ a.camParent = some (some "CameraPivot") ∧
      a.camRot = some (h.trackNegZY (vsub v0 (camVec e.size))) ∧
      a.pivotLoc = some e.center := by
  intro l
  induction l with
  | nil =>
    intro j s a ha
    simp [expOuter] at ha
  | cons e rest ih =>
    intro j s a ha
    unfold expOuter at ha
    rcases List.mem_append.mp ha with hb | hr
    · unfold expBlock at hb
      obtain ⟨t, _, rfl⟩ := List.mem_map.mp hb
      refine ⟨0, e, ?_, ?_, ?_, ?_, ?_, ?_⟩ <;> simp
    · split at hr
      · simp at hr
      · obtain ⟨t, e2, hget, hidx, hrest⟩ := ih (j + 1) (s + fpo) a hr
        refine ⟨t + 1, e2, by simpa using hget, by omega, hrest⟩

theorem expOuter_filter_rot (h : Host) (ok : Int → Bool) (fpo fc : Int) (o : Nat) :
    ∀ (l : List Feat) (j : Nat) (s : Int),
    ((expOuter h ok fpo fc l j s).filter (fun a => a.objIdx = o)).map (fun a => a.rotation)
      = []
    ∨ ((expOuter h ok fpo fc l j s).filter (fun a => a.objIdx = o)).map (fun a => a.rotation)
      = (List.range fpo.toNat).map (fun (t : Nat) => (⟨0, 0, 2 * (t : ℚ) / (fpo : ℚ)⟩ : Vec3)) := by
  intro l
  induction l with
  | nil =>
    intro j s
    left
    simp [expOuter]
  | cons e rest ih =>
    intro j s
    unfold expOuter
    rw [List.filter_append, List.map_append]
    by_cases ho : o = j
    · right
      have hb : (expBlock h ok fpo j s e).filter (fun a => a.objIdx = o) =
          expBlock h ok fpo j s e := by
        rw [List.filter_eq_self]
        intro a ha
        obtain ⟨t, _, rfl⟩ := List.mem_map.mp ha
        simp [ho]
      have hr : ((if fc ≤ s + fpo then ([] : List Attempt)
          else expOuter h ok fpo fc rest (j + 1) (s + fpo)).filter
            (fun a => a.objIdx = o)) = [] := by
        rw [List.filter_eq_nil_iff]
        intro a ha
        split at ha
        · simp at ha
        · have := expOuter_objIdx_ge h ok fpo fc rest (j + 1) (s + fpo) a ha
          simp [ho]
          omega
      rw [hb, hr]
      simp [expBlock, List.map_map, Function.comp]
    · have hb : (expBlock h ok fpo j s e).filter (fun a => a.objIdx = o) = [] := by
        rw [List.filter_eq_nil_iff]
        intro a ha
        obtain ⟨t, _, rfl⟩ := List.mem_map.mp ha
        simp
        omega
      rw [hb]
      simp only [List.map_nil, List.nil_append]
      split
      · left; simp
      · exact ih (j + 1) (s + fpo)

theorem expOuter_map_frameIdx (h : Host) (ok : Int → Bool) (fpo fc : Int)
    (hfpo1 : 1 ≤ fpo) :
    ∀ (l : List Feat) (j : Nat) (s : Int),
    (expOuter h ok fpo fc l j s).map (fun a => a.frameIdx) =
      (List.range (expOuter h ok fpo fc l j s).length).map (fun (t : Nat) => s + (t : Int)) := by
  have htn : ((fpo.toNat : Int)) = fpo := Int.toNat_of_nonneg (by omega)
  intro l
  induction l with
  | nil =>
    intro j s
    simp [expOuter]
  | cons e rest ih =>
    intro j s
    unfold expOuter
    rw [List.map_append, List.length_append, List.range_add, List.map_append]
    congr 1
    · simp [expBlock, List.map_map, Function.comp]
    · split
      · simp
      · rw [ih (j + 1) (s + fpo), List.map_map]
        apply List.map_congr_left
        intro t ht
        simp only [Function.comp_apply, expBlock, List.length_map, List.length_range]
        push_cast [htn]
        ring

/-- Attempts with the render outcome erased: used to state that a render
failure changes nothing about what is attempted. -/
def eraseOk (a : Attempt) : Attempt := { a with ok := true }

theorem expOuter_eraseOk (h : Host) (fpo fc : Int) (ok ok2 : Int → Bool) :
    ∀ (l : List Feat) (j : Nat) (s : Int),
    (expOuter h ok fpo fc l j s).map eraseOk = (expOuter h ok2 fpo fc l j s).map eraseOk := by
  intro l
  induction l with
  | nil => intro j s; rfl
  | cons e rest ih =>
    intro j s
    unfold expOuter
    rw [List.map_append, List.map_append]
    congr 1
    · simp [expBlock, List.map_map, Function.comp, eraseOk]
    · split
      · rfl
      · exact ih (j + 1) (s + fpo)

theorem eraseOk_frameIdx (a : Attempt) : (eraseOk a).frameIdx = a.frameIdx := rfl

theorem expOuter_length_spec (h : Host) (ok : Int → Bool) (fc : Int) (N : Nat) (hN : 1 ≤ N) :
    ∀ (l : List Feat) (j : Nat),
    (fc ≤ 0 → j = 0) →
    (1 ≤ fc → (j : Int) * max 1 (Int.fdiv fc (N : Int)) < fc) →
    (j + l.length ≤ N) →
    ((expOuter h ok (max 1 (Int.fdiv fc (N : Int))) fc l j
        ((j : Int) * max 1 (Int.fdiv fc (N : Int)))).length : Int) =
      if fc ≤ 0 then (if l.isEmpty then 0 else 1)
      else min (fc - (j : Int) * max 1 (Int.fdiv fc (N : Int)))
        ((l.length : Int) * max 1 (Int.fdiv fc (N : Int))) := by
  set fpo : Int := max 1 (Int.fdiv fc (N : Int)) with hfpo
  have hNpos : (0 : Int) < (N : Int) := by exact_mod_cast hN
  have hfpo1 : (1 : Int) ≤ fpo := le_max_left _ _
  have htn : ((fpo.toNat : Int)) = fpo := Int.toNat_of_nonneg (by omega)
  intro l
  induction l with
  | nil =>
    intro j hj0 hjlt hlen
    by_cases hfc : fc ≤ 0
    · simp [expOuter, hfc]
    · have h1 : (1 : Int) ≤ fc := by omega
      have h2 := hjlt h1
      rw [if_neg hfc]
      simp only [expOuter, List.length_nil, Nat.cast_zero, zero_mul]
      rw [min_eq_right (by linarith)]
  | cons e rest ih =>
    intro j hj0 hjlt hlen
    have hjN : j + 1 ≤ N := by
      have := hlen
      simp [List.length_cons] at this
      omega
    unfold expOuter
    rw [List.length_append]
    by_cases hfc : fc ≤ 0
    · have hj := hj0 hfc
      subst hj
      have h1 : fpo = 1 := by rw [hfpo]; exact fpo_eq_one_of_nonpos fc (N : Int) hNpos hfc
      have hcond : fc ≤ ((0 : Nat) : Int) * fpo + fpo := by
        rw [h1]
        simp
        omega
      rw [if_pos hcond]
      rw [if_pos hfc]
      simp [expBlock, h1]
    · have h1 : (1 : Int) ≤ fc := by omega
      have hs := hjlt h1
      have hstep : ((j : Int) + 1) * fpo ≤ fc := by
        rw [hfpo]
        refine fpo_step fc (N : Int) (j : Int) hNpos ?_ (Int.natCast_nonneg j) ?_
        · exact_mod_cast hjN
        · rw [← hfpo]; exact hs
      have hstep2 : (j : Int) * fpo + fpo ≤ fc := by
        have h3 : ((j : Int) + 1) * fpo = (j : Int) * fpo + fpo := by ring
        linarith
      rw [if_neg hfc]
      by_cases hif : fc ≤ (j : Int) * fpo + fpo
      · rw [if_pos hif]
        have hfs : fc - (j : Int) * fpo = fpo := by linarith
        have hrest : fpo ≤ ((rest.length : Int) + 1) * fpo :=
          le_mul_of_one_le_left (by omega) (by omega)
        rw [hfs]
        simp only [expBlock, List.length_map, List.length_range, List.length_nil,
          Nat.add_zero, List.length_cons]
        rw [min_eq_left (by push_cast; linarith)]
        push_cast [htn]
        ring
      · rw [if_neg hif]
        have hs2 : (j : Int) * fpo + fpo = ((j + 1 : Nat) : Int) * fpo := by push_cast; ring
        rw [hs2]
        have hj0' : fc ≤ 0 → j + 1 = 0 := fun hcon => absurd hcon hfc
        have hjlt' : 1 ≤ fc → ((j + 1 : Nat) : Int) * fpo < fc := by
          intro _
          rw [← hs2]
          exact not_le.mp hif
        have hlen' : (j + 1) + rest.length ≤ N := by
          have := hlen
          simp [List.length_cons] at this
          omega
        have hrec := ih (j + 1) hj0' hjlt' hlen'
        rw [if_neg hfc] at hrec
        simp only [expBlock, List.length_map, List.length_range, List.length_cons]
        push_cast [htn]
        push_cast [htn] at hrec
        rw [hrec]
        have key : ∀ p A B : Int, p + min (A - p) B = min A (B + p) := by
          intro p A B
          omega
        rw [show ((rest.length : Int) + 1) * fpo = (rest.length : Int) * fpo + fpo from by ring,
          show fc - ((j : Int) + 1) * fpo = fc - (j : Int) * fpo - fpo from by ring]
        exact key fpo (fc - (j : Int) * fpo) ((rest.length : Int) * fpo)

/-! ### Concrete host and scenes for witnesses and counterexamples -/

/-- Concrete host instance.  Its length function agrees with the Euclidean
norm on every vector the test scenes below ever measure (their boxes span a
single axis, so the diagonal has one nonzero component); the track-to
helper may be any function since the statements never constrain it. -/
def l1Host : Host :=
  { len := fun v => |v.x| + |v.y| + |v.z|
    trackNegZY := fun v => v }

/-- An axis-aligned test mesh qualifying for the survey: a box from the
origin to (l, 0, 0). -/
def segMesh (nm : String) (l : ℚ) : Obj :=
  { name := nm
    objType := ObjType.MESH
    verts := 8
    bound_box := fun i => if i = 0 then v0 else ⟨l, 0, 0⟩
    matrix_world := id
    location := v0
    rotation_euler := v0
    parent := none
    hide_render := false
    hide_viewport := false }

/-- A mesh object with no geometry: obj.data has zero vertices. -/
def ghostMesh : Obj :=
  { name := "G"
    objType := ObjType.MESH
    verts := 0
    bound_box := fun _ => v0
    matrix_world := id
    location := v0
    rotation_euler := v0
    parent := none
    hide_render := false
    hide_viewport := false }

/-- A degenerate single-point mesh: every bounding-box corner coincides. -/
def pointMesh : Obj :=
  { name := "P"
    objType := ObjType.MESH
    verts := 1
    bound_box := fun _ => v0
    matrix_world := id
    location := v0
    rotation_euler := v0
    parent := none
    hide_render := false
    hide_viewport := false }

/-- A scene with three qualifying meshes of sizes 1, 3 and 2. -/
def scene3 : Scene := [segMesh "A" 1, segMesh "B" 3, segMesh "C" 2]

/-- A render outcome function that fails exactly on global frame index 4. -/
def okBut4 : Int → Bool := fun s => !(s == 4)

/-! ### Claim theorems -/

/-- C3: when the survey yields zero qualifying mesh objects, the frame loop
receives exactly one fallback entry with a null object reference whose
center and size are the whole-scene bounds, which in turn are the joint
min/max accumulation over all mesh objects' world corners; the featured
list is therefore never empty. -/
theorem c3_fallback_entry (h : Host) (scene : Scene)
    (hq : get_largest_objects h scene MAX_FEATURED_OBJECTS = []) :
    featuredFor h scene =
      [⟨none, (get_scene_bounds h scene).1, (get_scene_bounds h scene).2⟩]
    ∧ featuredFor h scene ≠ []
    ∧ (∀ mn mx, foldBounds (allMeshCorners scene) = some (mn, mx) →
        (scene.filter (fun o => o.objType = ObjType.MESH)).isEmpty = false →
        get_scene_bounds h scene = (vmid mn mx, max (h.len (vsub mx mn)) (1 / 10))) := by
  refine ⟨?_, featuredFor_ne_nil h scene, ?_⟩
  · unfold featuredFor
    rw [hq]
    simp
  · intro mn mx hfold hne
    unfold get_scene_bounds
    rw [hne, hfold]
    simp

/-- Witness for C3 on a concrete scene whose only mesh has no vertices. -/
theorem c3_witness :
    featuredFor l1Host [ghostMesh] =
      [⟨none, (get_scene_bounds l1Host [ghostMesh]).1, (get_scene_bounds l1Host [ghostMesh]).2⟩] :=
  (c3_fallback_entry l1Host [ghostMesh] (by rfl)).1

/-- C6 (amended): whenever a per-object bounds computation yields a center
(a non-null first component), the accompanying size is at least 0.1, and a
whole-scene bounds size is always at least 0.1; the per-object computation
on a non-mesh object or a mesh without geometry instead returns the
sentinel (None, 0.0), whose 0.0 is below 0.1. -/
theorem c6_size_floor (h : Host) (o : Obj) (scene : Scene) (c : Vec3) (s : ℚ)
    (hob : get_object_bounds h o = (some c, s)) :
    1 / 10 ≤ s ∧ 1 / 10 ≤ (get_scene_bounds h scene).2 := by
  constructor
  · unfold get_object_bounds at hob
    split at hob
    · simp at hob
    · split at hob
      · simp at hob
      · split at hob
        · simp at hob
        · rename_i mn mx heq
          simp only [Prod.mk.injEq] at hob
          rw [← hob.2]
          exact le_max_right _ _
  · unfold get_scene_bounds
    split
    · norm_num
    · split
      · norm_num
      · exact le_max_right _ _

theorem finRange_eight : List.finRange 8 = [0, 1, 2, 3, 4, 5, 6, 7] := by decide

theorem pointMesh_bounds : get_object_bounds l1Host pointMesh = (some v0, 1 / 10) := by
  norm_num [get_object_bounds, pointMesh, worldCorners, foldBounds, finRange_eight,
    vmid, vmin, vmax, vsub, l1Host, v0, max_def]

/-- Witness for C6 at the degenerate single-point mesh: its size is floored
to exactly 0.1. -/
theorem c6_witness :
    (1 : ℚ) / 10 ≤ 1 / 10 ∧ (1 : ℚ) / 10 ≤ (get_scene_bounds l1Host []).2 :=
  c6_size_floor l1Host pointMesh [] v0 (1 / 10) pointMesh_bounds

/-- Counterexample for C6 as stated: a bounds computation on a mesh with no
geometry returns the size value 0.0, which is below 0.1. -/
theorem c6_counterexample :
    get_object_bounds l1Host ghostMesh = (none, 0) ∧ ¬ ((1 : ℚ) / 10 ≤ 0) :=
  ⟨rfl, by norm_num⟩

/-- C8: after a full run, every object of the final scene is visible on
both flags, whatever was toggled in between (objects quantified through
their position in the scene list). -/
theorem c8_visibility_restored (h : Host) (ok : Int → Bool) (scene : Scene) (fc : Int)
    (idx : Nat) (o : Obj)
    (ho : ((render_turntable h ok scene fc).scene)[idx]? = some o) :
    o.hide_render = false ∧ o.hide_viewport = false := by
  simp only [render_turntable] at ho
  unfold restore_visibility at ho
  rw [List.getElem?_map] at ho
  cases h2 : (outerLoop h ok
      (max 1 (Int.fdiv fc ((featuredFor h scene).length : Int))) fc (featuredFor h scene) 0 0
      (setup_pivot (setup_camera
        (setup_lighting scene ((featuredFor h scene).headD ⟨none, v0, 0⟩).size)
        ((featuredFor h scene).headD ⟨none, v0, 0⟩).size)) []).1[idx]? with
  | none => rw [h2] at ho; simp at ho
  | some x =>
    rw [h2] at ho
    simp only [Option.map_some', Option.some.injEq] at ho
    rw [← ho]
    exact ⟨rfl, rfl⟩

/-- Witness for C8: the sun light of a run on the empty scene is visible
(its location is written in the unreduced arithmetic form the run builds,
so the lookup is definitional). -/
theorem c8_witness :
    (mkObj "TurntableSun" ObjType.LIGHT
      ⟨(1 : ℚ) * (5 / 2), (1 : ℚ) * (5 / 2), (1 : ℚ) * (5 / 2) * 2⟩).hide_render = false
    ∧ (mkObj "TurntableSun" ObjType.LIGHT
      ⟨(1 : ℚ) * (5 / 2), (1 : ℚ) * (5 / 2), (1 : ℚ) * (5 / 2) * 2⟩).hide_viewport = false :=
  c8_visibility_restored l1Host (fun _ => true) [] 1 0
    (mkObj "TurntableSun" ObjType.LIGHT
      ⟨(1 : ℚ) * (5 / 2), (1 : ℚ) * (5 / 2), (1 : ℚ) * (5 / 2) * 2⟩) (by rfl)

/-- Rotation sequence recorded for featured object index o in a run. -/
def objRotations (R : RunResult) (o : Nat) : List Vec3 :=
  (R.trace.filter (fun a => a.objIdx = o)).map (fun a => a.rotation)

/-- C4: for every featured object that renders k frames, the pivot
rotations set before its k render calls are exactly (0, 0, 2 pi i / k) for
i = 0 .. k-1 (the z component stores the angle in units of pi): even steps
about the vertical axis only, starting at angle 0. -/
theorem c4_rotation_sequence (h : Host) (ok : Int → Bool) (scene : Scene) (fc : Int) (o : Nat) :
    objRotations (render_turntable h ok scene fc) o =
      (List.range (objRotations (render_turntable h ok scene fc) o).length).map
        (fun (i : Nat) =>
          (⟨0, 0, 2 * (i : ℚ) /
            ((objRotations (render_turntable h ok scene fc) o).length : ℚ)⟩ : Vec3)) := by
  unfold objRotations
  rw [render_trace_eq]
  rcases expOuter_filter_rot h ok
      (max 1 (Int.fdiv fc ((featuredFor h scene).length : Int))) fc o
      (featuredFor h scene) 0 0 with hnil | hstd
  · rw [hnil]
    simp
  · rw [hstd]
    simp only [List.length_map, List.length_range]
    apply List.map_congr_left
    intro t ht
    have h0 : (1 : Int) ≤ max 1 (Int.fdiv fc ((featuredFor h scene).length : Int)) :=
      le_max_left _ _
    have h1 : (((max 1 (Int.fdiv fc ((featuredFor h scene).length : Int))).toNat : Int)) =
        max 1 (Int.fdiv fc ((featuredFor h scene).length : Int)) :=
      Int.toNat_of_nonneg (by omega)
    have h2 : (((max 1 (Int.fdiv fc ((featuredFor h scene).length : Int))).toNat : ℚ)) =
        ((max 1 (Int.fdiv fc ((featuredFor h scene).length : Int)) : Int) : ℚ) := by
      exact_mod_cast congrArg (fun z : Int => (z : ℚ)) h1
    rw [h2]

/-- Attempt count of a full run: min(frame_count, n * frames_per_object)
for a positive frame budget, one attempt for a non-positive one. -/
theorem render_length (h : Host) (ok : Int → Bool) (scene : Scene) (fc : Int) :
    (1 ≤ fc → (((render_turntable h ok scene fc).trace.length : Int)) =
      min fc (((featuredFor h scene).length : Int) *
        max 1 (Int.fdiv fc ((featuredFor h scene).length : Int))))
    ∧ (fc ≤ 0 → (render_turntable h ok scene fc).trace.length = 1) := by
  have hN : 1 ≤ (featuredFor h scene).length := featuredFor_length_pos h scene
  have hlen := expOuter_length_spec h ok fc (featuredFor h scene).length hN
    (featuredFor h scene) 0 (fun _ => rfl)
    (fun hfc => by simp only [Nat.cast_zero, zero_mul]; omega) (by simp)
  simp only [Nat.cast_zero, zero_mul, sub_zero] at hlen
  rw [render_trace_eq]
  constructor
  · intro hfc
    rw [hlen, if_neg (by omega)]
  · intro hfc
    rw [if_pos hfc] at hlen
    have hne : (featuredFor h scene).isEmpty = false := by
      rcases hfe : featuredFor h scene with _ | ⟨a, l⟩
      · exact absurd hfe (featuredFor_ne_nil h scene)
      · rfl
    rw [hne] at hlen
    simp at hlen
    exact_mod_cast hlen

/-- C9: with n featured entries (n is at least 1 thanks to the fallback),
a positive frame budget yields exactly min(frame_count, n * max(1,
frame_count // n)) render attempts (an under-render when n does not divide
frame_count), while a non-positive frame budget still yields exactly one
attempt, exceeding the request. -/
theorem c9_frame_budget (h : Host) (ok : Int → Bool) (scene : Scene) (fc : Int) :
    (1 ≤ fc → (((render_turntable h ok scene fc).trace.length : Int)) =
      min fc (((featuredFor h scene).length : Int) *
        max 1 (Int.fdiv fc ((featuredFor h scene).length : Int))))
    ∧ (fc ≤ 0 → (render_turntable h ok scene fc).trace.length = 1) :=
  render_length h ok scene fc

/-- Witness for C9: both branches on the empty scene. -/
theorem c9_witness :
    (((render_turntable l1Host (fun _ => true) [] 5).trace.length : Int) =
      min 5 (((featuredFor l1Host []).length : Int) *
        max 1 (Int.fdiv 5 ((featuredFor l1Host []).length : Int))))
    ∧ (render_turntable l1Host (fun _ => true) [] (-1)).trace.length = 1 :=
  ⟨(c9_frame_budget l1Host (fun _ => true) [] 5).1 (by norm_num),
    (c9_frame_budget l1Host (fun _ => true) [] (-1)).2 (by norm_num)⟩

/-! ### Evaluation of the survey on the concrete three-mesh scene -/

theorem segMesh_corners (nm : String) (l : ℚ) :
    worldCorners (segMesh nm l) =
      [v0, ⟨l, 0, 0⟩, ⟨l, 0, 0⟩, ⟨l, 0, 0⟩, ⟨l, 0, 0⟩, ⟨l, 0, 0⟩, ⟨l, 0, 0⟩, ⟨l, 0, 0⟩] := by
  simp [worldCorners, segMesh, finRange_eight]

theorem foldBounds_segCorners (l : ℚ) (hl : 0 < l) :
    foldBounds [v0, ⟨l, 0, 0⟩, ⟨l, 0, 0⟩, ⟨l, 0, 0⟩, ⟨l, 0, 0⟩, ⟨l, 0, 0⟩, ⟨l, 0, 0⟩, ⟨l, 0, 0⟩]
      = some (v0, ⟨l, 0, 0⟩) := by
  have hmin : min (0 : ℚ) l = 0 := min_eq_left (le_of_lt hl)
  have hmax : max (0 : ℚ) l = l := max_eq_right (le_of_lt hl)
  simp [foldBounds, vmin, vmax, v0, hmin, hmax, min_self, max_self]

theorem segMesh_bounds (nm : String) (l : ℚ) (hl : 0 < l) :
    get_object_bounds l1Host (segMesh nm l) = (some ⟨l / 2, 0, 0⟩, max l (1 / 10)) := by
  have habs : |l| = l := abs_of_pos hl
  unfold get_object_bounds
  rw [segMesh_corners nm l, foldBounds_segCorners l hl]
  norm_num [segMesh, vmid, vsub, l1Host, v0, habs]

theorem qualifying_scene3 : qualifying l1Host scene3 =
    [⟨some "A", ⟨1 / 2, 0, 0⟩, 1⟩, ⟨some "B", ⟨3 / 2, 0, 0⟩, 3⟩, ⟨some "C", ⟨1, 0, 0⟩, 2⟩] := by
  have hA := segMesh_bounds "A" 1 (by norm_num)
  have hB := segMesh_bounds "B" 3 (by norm_num)
  have hC := segMesh_bounds "C" 2 (by norm_num)
  rw [show max (1 : ℚ) (1 / 10) = 1 from by norm_num [max_def]] at hA
  rw [show max (3 : ℚ) (1 / 10) = 3 from by norm_num [max_def]] at hB
  rw [show max (2 : ℚ) (1 / 10) = 2 from by norm_num [max_def]] at hC
  have hty : ∀ (nm : String) (l : ℚ), (segMesh nm l).objType = ObjType.MESH := fun _ _ => rfl
  have hnm : ∀ (nm : String) (l : ℚ), (segMesh nm l).name = nm := fun _ _ => rfl
  norm_num [qualifying, scene3, List.filterMap_cons, hA, hB, hC, hty, hnm]

theorem featuredFor_scene3 : featuredFor l1Host scene3 =
    [⟨some "B", ⟨3 / 2, 0, 0⟩, 3⟩, ⟨some "C", ⟨1, 0, 0⟩, 2⟩, ⟨some "A", ⟨1 / 2, 0, 0⟩, 1⟩] := by
  unfold featuredFor get_largest_objects
  rw [qualifying_scene3]
  norm_num [sortBySize, insertBySize, MAX_FEATURED_OBJECTS]

theorem scene3_length (ok : Int → Bool) :
    (render_turntable l1Host ok scene3 10).trace.length = 9 := by
  have h3 : (featuredFor l1Host scene3).length = 3 := by rw [featuredFor_scene3]; rfl
  have hmain := (render_length l1Host ok scene3 10).1 (by norm_num)
  rw [h3] at hmain
  rw [show Int.fdiv 10 ((3 : Nat) : Int) = 3 from by decide] at hmain
  norm_num at hmain
  exact_mod_cast hmain

/-- C1 evaluated at the failing input: a scene with three featured objects
and frame_count = 10 renders 9 frames, not 10. -/
theorem c1_frame_total_bug :
    (render_turntable l1Host (fun _ => true) scene3 10).trace.length = 9
    ∧ (featuredFor l1Host scene3).length = 3 ∧ (9 : Nat) ≠ 10 := by
  refine ⟨scene3_length (fun _ => true), ?_, by norm_num⟩
  rw [featuredFor_scene3]
  rfl

/-! ### Render failures and frame-index coverage -/

theorem expOuter_mem_ok (h : Host) (ok : Int → Bool) (fpo fc : Int) :
    ∀ (l : List Feat) (j : Nat) (s : Int) (a : Attempt),
    a ∈ expOuter h ok fpo fc l j s → a.ok = ok a.frameIdx := by
  intro l
  induction l with
  | nil =>
    intro j s a ha
    simp [expOuter] at ha
  | cons e rest ih =>
    intro j s a ha
    unfold expOuter at ha
    rcases List.mem_append.mp ha with hb | hr
    · unfold expBlock at hb
      obtain ⟨t, _, rfl⟩ := List.mem_map.mp hb
      rfl
    · split at hr
      · simp at hr
      · exact ih (j + 1) (s + fpo) a hr

theorem render_frameIdx_iff (h : Host) (ok : Int → Bool) (scene : Scene) (fc : Int) (v : Int) :
    (∃ a ∈ (render_turntable h ok scene fc).trace, a.frameIdx = v) ↔
      0 ≤ v ∧ v < ((render_turntable h ok scene fc).trace.length : Int) := by
  rw [render_trace_eq]
  have hfpo1 : (1 : Int) ≤ max 1 (Int.fdiv fc ((featuredFor h scene).length : Int)) :=
    le_max_left _ _
  have hm := expOuter_map_frameIdx h ok
    (max 1 (Int.fdiv fc ((featuredFor h scene).length : Int))) fc hfpo1
    (featuredFor h scene) 0 0
  constructor
  · rintro ⟨a, ha, rfl⟩
    have hmem : a.frameIdx ∈ (expOuter h ok
        (max 1 (Int.fdiv fc ((featuredFor h scene).length : Int))) fc
        (featuredFor h scene) 0 0).map (fun a => a.frameIdx) :=
      List.mem_map_of_mem _ ha
    rw [hm] at hmem
    obtain ⟨t, htr, heq⟩ := List.mem_map.mp hmem
    rw [List.mem_range] at htr
    constructor <;> omega
  · rintro ⟨h0, hlt⟩
    have hv : v ∈ (List.range (expOuter h ok
        (max 1 (Int.fdiv fc ((featuredFor h scene).length : Int))) fc
        (featuredFor h scene) 0 0).length).map (fun (t : Nat) => (0 : Int) + (t : Int)) := by
      refine List.mem_map.mpr ⟨v.toNat, List.mem_range.mpr (by omega), by omega⟩
    rw [← hm] at hv
    obtain ⟨a, ha, heq⟩ := List.mem_map.mp hv
    exact ⟨a, ha, heq⟩

/-- A run on the three-mesh scene with a failure injected at frame 4. -/
theorem scene3_fail4 :
    ∃ a ∈ (render_turntable l1Host okBut4 scene3 10).trace,
      a.frameIdx = 4 ∧ a.ok = false := by
  have hlen := scene3_length okBut4
  have hcov := (render_frameIdx_iff l1Host okBut4 scene3 10 4).mpr
    (by rw [hlen]; norm_num)
  obtain ⟨a, ha, hfi⟩ := hcov
  refine ⟨a, ha, hfi, ?_⟩
  have hok : a.ok = okBut4 a.frameIdx := by
    rw [render_trace_eq] at ha
    exact expOuter_mem_ok l1Host okBut4 _ 10 _ 0 0 a ha
  rw [hok, hfi]
  decide

/-- Counterexample for C7 as stated: in a run where the render fails on
frame 4, the failure is caught, yet the number of attempts is 9, which does
not reach the requested frame_count of 10. -/
theorem c7_counterexample :
    (∃ a ∈ (render_turntable l1Host okBut4 scene3 10).trace,
      a.frameIdx = 4 ∧ a.ok = false)
    ∧ (render_turntable l1Host okBut4 scene3 10).trace.length = 9
    ∧ ¬ (10 ≤ (render_turntable l1Host okBut4 scene3 10).trace.length) := by
  refine ⟨scene3_fail4, scene3_length okBut4, ?_⟩
  rw [scene3_length okBut4]
  norm_num

/-- C7 (amended): a render failure on frame i is caught and changes nothing
about what is attempted: the attempt sequence (outcome erased) and its
length equal those of a failure-free run, and frame i + 1 is attempted
exactly when the attempt count exceeds it, in other words exactly when a
failure-free run would attempt it. -/
theorem c7_failure_isolated (h : Host) (scene : Scene) (fc : Int) (ok : Int → Bool) (i : Int)
    (hfail : ∃ a ∈ (render_turntable h ok scene fc).trace, a.frameIdx = i ∧ a.ok = false) :
    ((render_turntable h ok scene fc).trace.map eraseOk =
      (render_turntable h (fun _ => true) scene fc).trace.map eraseOk)
    ∧ ((render_turntable h ok scene fc).trace.length =
      (render_turntable h (fun _ => true) scene fc).trace.length)
    ∧ ((∃ a ∈ (render_turntable h ok scene fc).trace, a.frameIdx = i + 1) ↔
      i + 1 < ((render_turntable h ok scene fc).trace.length : Int)) := by
  have herase : (render_turntable h ok scene fc).trace.map eraseOk =
      (render_turntable h (fun _ => true) scene fc).trace.map eraseOk := by
    rw [render_trace_eq, render_trace_eq]
    exact expOuter_eraseOk h _ fc ok (fun _ => true) (featuredFor h scene) 0 0
  refine ⟨herase, ?_, ?_⟩
  · have := congrArg List.length herase
    simpa using this
  · obtain ⟨a, ha, hfi, _⟩ := hfail
    have h0 : 0 ≤ i := ((render_frameIdx_iff h ok scene fc i).mp ⟨a, ha, hfi⟩).1
    rw [render_frameIdx_iff]
    constructor
    · intro hx
      exact hx.2
    · intro hx
      exact ⟨by omega, hx⟩

/-- Witness for C7: the failing run of scene3 attempts exactly as many
frames as the failure-free run. -/
theorem c7_witness :
    (render_turntable l1Host okBut4 scene3 10).trace.length =
      (render_turntable l1Host (fun _ => true) scene3 10).trace.length :=
  (c7_failure_isolated l1Host scene3 10 okBut4 4 scene3_fail4).2.1

/-! ### Camera placement per featured object -/

/-- C5: every render attempt is made with the camera parented under the
pivot, the camera local position at (d, 0, 0.5 d) for d = 2.5 times the
size of that attempt's featured entry, the camera orientation the host
track-to -Z/Y-up look-at of the direction from that position to the pivot
origin, and the pivot moved to the entry's center — recomputed per featured
object since the entry's size and center vary. -/
theorem c5_camera_placement (h : Host) (ok : Int → Bool) (scene : Scene) (fc : Int)
    (a : Attempt) (ha : a ∈ (render_turntable h ok scene fc).trace) :
    ∃ e : Feat, (featuredFor h scene)[a.objIdx]? = some e
      ∧ a.camLoc = some (camVec e.size)
      ∧ a.camParent = some (some "CameraPivot")
      ∧ a.camRot = some (h.trackNegZY (vsub v0 (camVec e.size)))
      ∧ a.pivotLoc = some e.center := by
  rw [render_trace_eq] at ha
  obtain ⟨t, e, hget, hidx, hfields⟩ := expOuter_mem_fields h ok
    (max 1 (Int.fdiv fc ((featuredFor h scene).length : Int))) fc
    (featuredFor h scene) 0 0 a ha
  refine ⟨e, ?_, hfields⟩
  rw [hidx]
  simpa using hget

/-- The single attempt of a one-frame run on the empty scene. -/
def awitness : Attempt :=
  { objIdx := 0
    frameIdx := 0
    rotation := ⟨0, 0, 0⟩
    ok := true
    camLoc := some (camVec 1)
    camParent := some (some "CameraPivot")
    camRot := some (l1Host.trackNegZY (vsub v0 (camVec 1)))
    pivotLoc := some v0 }

theorem featuredFor_empty : featuredFor l1Host [] = [⟨none, v0, 1⟩] := rfl

theorem awitness_mem :
    awitness ∈ (render_turntable l1Host (fun _ => true) [] 1).trace := by
  rw [render_trace_eq, featuredFor_empty]
  rw [show (max 1 (Int.fdiv 1 ((([⟨none, v0, 1⟩] : List Feat).length : Nat) : Int))) = 1
    from by decide]
  norm_num [expOuter, expBlock, awitness]

/-- Witness for C5 at the single attempt of a one-frame empty-scene run. -/
theorem c5_witness :
    ∃ e : Feat, (featuredFor l1Host [])[awitness.objIdx]? = some e
      ∧ awitness.camLoc = some (camVec e.size)
      ∧ awitness.camParent = some (some "CameraPivot")
      ∧ awitness.camRot = some (l1Host.trackNegZY (vsub v0 (camVec e.size)))
      ∧ awitness.pivotLoc = some e.center :=
  c5_camera_placement l1Host (fun _ => true) [] 1 awitness awitness_mem

/-! ### Runs on a scene with no mesh objects -/

/-- C10: with zero mesh objects the whole-scene fallback is the built-in
default center (0,0,0) and size exactly 1.0 (not the 0.1 floor), the frame
loop receives that single fallback entry, a positive frame budget is
rendered in full, and every attempt places the camera with distance
parameter 2.5 (local position (2.5, 0, 1.25)) and the pivot at the
origin. -/
theorem c10_meshless_default (h : Host) (ok : Int → Bool) (scene : Scene) (fc : Int)
    (hmesh : ∀ o ∈ scene, o.objType ≠ ObjType.MESH) :
    get_scene_bounds h scene = (v0, 1)
    ∧ featuredFor h scene = [⟨none, v0, 1⟩]
    ∧ (1 ≤ fc → ((render_turntable h ok scene fc).trace.length : Int) = fc)
    ∧ (∀ a ∈ (render_turntable h ok scene fc).trace,
        a.camLoc = some (camVec 1) ∧ a.pivotLoc = some v0) := by
  have hfil : scene.filter (fun o => o.objType = ObjType.MESH) = [] := by
    rw [List.filter_eq_nil_iff]
    intro o ho
    simpa using hmesh o ho
  have hgsb : get_scene_bounds h scene = (v0, 1) := by
    unfold get_scene_bounds
    rw [hfil]
    rfl
  have hql : qualifying h scene = [] := by
    unfold qualifying
    rw [List.filterMap_eq_nil_iff]
    intro o ho
    simp [hmesh o ho]
  have hfeat : featuredFor h scene = [⟨none, v0, 1⟩] := by
    unfold featuredFor get_largest_objects
    rw [hql, hgsb]
    simp [sortBySize]
  have hN1 : (featuredFor h scene).length = 1 := by rw [hfeat]; rfl
  refine ⟨hgsb, hfeat, ?_, ?_⟩
  · intro hfc
    have hmain := (render_length h ok scene fc).1 hfc
    rw [hN1] at hmain
    rw [hmain]
    rw [show ((1 : Nat) : Int) = 1 from rfl, Int.fdiv_one, one_mul,
      max_eq_right hfc, min_self]
  · intro a ha
    rw [render_trace_eq] at ha
    obtain ⟨t, e, hget, _, hcl, _, _, hpl⟩ := expOuter_mem_fields h ok
      (max 1 (Int.fdiv fc ((featuredFor h scene).length : Int))) fc
      (featuredFor h scene) 0 0 a ha
    rw [hfeat] at hget
    cases t with
    | zero =>
      simp only [List.getElem?_cons_zero, Option.some.injEq] at hget
      rw [← hget] at hcl hpl
      exact ⟨hcl, hpl⟩
    | succ t =>
      simp at hget

/-- Witness for C10: a four-frame run on the empty scene attempts exactly
four frames. -/
theorem c10_witness :
    ((render_turntable l1Host (fun _ => true) [] 4).trace.length : Int) = 4 :=
  (c10_meshless_default l1Host (fun _ => true) [] 4 (by simp)).2.2.1 (by norm_num)
